import Mathlib

/-!
Shallow embedding of the ingestion-and-ranking pipeline of the
"most influential GitHub repo stars" application, translated from the
streaming route handler in src/app/page.tsx (the better-sqlite3 variant:
constants at the top of the module, the SQLite cache helpers
getCachedRepo / getCachedUser, fetchWithRateLimitHandling, processUser,
and the POST orchestration).

Modelling conventions:
- JavaScript numbers are modelled as Nat inputs with exact rational
  (Rat) score arithmetic; the score weights 2.5 / 2.0 / 0.1 / 0.1 are
  exact rationals.
- Network calls are modelled by outcome oracles (Nat -> Outcome),
  giving the result of each successive attempt of an operation:
  success, a distinguishable rate-limit failure (status 403 with a
  message containing "rate limit"), or any other failure.
- Promise.all joins are sequenced in program order (the argument
  order of the join); the pipeline is single-threaded cooperative
  concurrency, and no claim depends on interleaving order.
- The emitted newline-delimited JSON records are modelled as a List
  of Record values in emission order; upstream API calls are counted.
- The write-back of caches (cacheRepo / cacheUser) has no effect
  within a single run (every login is processed at most once after
  deduplication), so cache tables are read-only inputs of a run.
-/

namespace Influencers

/-- Constant MAX_USERS_TO_PROCESS = 1000 from the route module. -/
def MAX_USERS_TO_PROCESS : Nat := 1000

/-- Constant CONCURRENCY_LIMIT = 30 from the route module. -/
def CONCURRENCY_LIMIT : Nat := 30

/-- Constant CACHE_TTL = 100*7200000 milliseconds from the route module. -/
def CACHE_TTL : Int := 100 * 7200000

/-- Constant RATE_LIMIT_DELAY = 15000 milliseconds from the route module. -/
def RATE_LIMIT_DELAY : Nat := 15000

/-- Fields of the GitHub user object read by processUser.  The name field
is nullable upstream. -/
structure UserData where
  name : Option String
  avatar_url : String
  bio : Option String
  company : Option String
  location : Option String
  followers : Nat
  following : Nat
  public_repos : Nat
  public_gists : Nat
deriving DecidableEq

/-- A repository item of the fetched user-repositories page; only
stargazers_count is read. -/
structure RepoItem where
  stargazers_count : Nat
deriving DecidableEq

/-- An item of the fetched public-events page; only the count of items
is used. -/
structure EventItem where
  id : Nat
deriving DecidableEq

/-- A stargazer (or fork owner) object; only the login is read. -/
structure SimpleUser where
  login : String
deriving DecidableEq

/-- A fork object; only owner.login is read. -/
structure Fork where
  owner : SimpleUser
deriving DecidableEq

/-- Fields of repoInfo.data read by the pipeline. -/
structure RepoData where
  name : String
  description : Option String
  stargazers_count : Nat
  forks_count : Nat
deriving DecidableEq

/-- The repoInfo summary of the result payload. -/
structure RepoInfo where
  name : String
  description : Option String
  stars : Nat
  forks : Nat
deriving DecidableEq

/-- The enriched user record built by processUser (userData in the
source). -/
structure Influencer where
  login : String
  name : String
  avatarUrl : String
  bio : Option String
  company : Option String
  location : Option String
  stars : Nat
  followers : Nat
  following : Nat
  contributions : Nat
  recentActivity : Nat
  score : ℚ
deriving DecidableEq

/-- calculateScore from the source:
stars * 2.5 + followers * 2.0 + contributions * 0.1 + recentActivity * 0.1. -/
def calculateScore (stars followers contributions recentActivity : Nat) : ℚ :=
  (stars : ℚ) * 2.5 + (followers : ℚ) * 2.0 + (contributions : ℚ) * 0.1 +
    (recentActivity : ℚ) * 0.1

/-- The fresh-fetch body of processUser.  The three arguments are the
settled results of the three concurrent fetches (user profile, first
repository page, first events page), each routed through the
rate-limited fetcher; if any of them failed, the catch block returns
null (none).  The name field mirrors the JavaScript expression
user.data.name || login, which falls back to the login when the
upstream name is null (or an empty, falsy string). -/
def processUser (login : String) (user : Except String UserData)
    (repos : Except String (List RepoItem))
    (events : Except String (List EventItem)) : Option Influencer :=
  match user, repos, events with
  | .ok u, .ok rs, .ok es =>
    let totalStars := rs.foldl (fun acc repoItem => acc + repoItem.stargazers_count) 0
    let contributions := u.public_repos + u.public_gists
    let recentActivity := es.length
    some
      { login := login
        name := match u.name with
                | some n => if n = "" then login else n
                | none => login
        avatarUrl := u.avatar_url
        bio := u.bio
        company := u.company
        location := u.location
        stars := totalStars
        followers := u.followers
        following := u.following
        contributions := contributions
        recentActivity := recentActivity
        score := calculateScore totalStars u.followers contributions recentActivity }
  | _, _, _ => none

/-- A record of the newline-delimited JSON response stream: either a
status/progress update or the final result payload. -/
inductive Record where
  | update (status : String) (progress : ℚ)
  | payload (repoInfo : RepoInfo) (influencers : List Influencer)
deriving DecidableEq

/-- Whether a stream record is a status/progress update. -/
def Record.isUpdate : Record → Bool
  | .update _ _ => true
  | .payload _ _ => false

/-- Whether a stream record is the result payload. -/
def Record.isPayload : Record → Bool
  | .update _ _ => false
  | .payload _ _ => true

/-- Outcome of one attempt of an upstream operation: success, the
distinguishable rate-limit failure, or any other failure. -/
inductive Outcome (α : Type) where
  | ok (v : α)
  | rateLimited
  | failed (msg : String)
deriving DecidableEq

/-- The status message sent while waiting out a rate limit
(waitTime = RATE_LIMIT_DELAY / 1000 = 15 in the source). -/
def rateLimitMsg : String :=
  s!"Rate limit reached. Waiting for {RATE_LIMIT_DELAY / 1000} seconds..."

/-- The progress event emitted on a rate-limit failure: the status
message with the negative sentinel progress value -1. -/
def rateLimitRecord : Record := Record.update rateLimitMsg (-1)

/-- Observable trace of one fetchWithRateLimitHandling call: the final
result, the progress events it emitted, the sleeps it performed
(milliseconds), and how many times it invoked the wrapped operation. -/
structure FetchTrace (α : Type) where
  result : Except String α
  events : List Record
  sleeps : List Nat
  attempts : Nat

/-- Default maxRetries = 25 of fetchWithRateLimitHandling. -/
def maxRetries : Nat := 25

/-- The retry loop of fetchWithRateLimitHandling: with fuel n remaining,
attempt number i is taken from the outcome oracle; a rate-limit failure
emits the sentinel progress event, sleeps RATE_LIMIT_DELAY and retries;
any other failure propagates immediately; exhausted fuel yields the
terminal error thrown after the loop. -/
def fetchGo {α : Type} (f : Nat → Outcome α) : Nat → Nat → FetchTrace α
  | _, 0 => ⟨Except.error "Max retries reached for rate limit", [], [], 0⟩
  | i, n + 1 =>
    match f i with
    | .ok v => ⟨Except.ok v, [], [], 1⟩
    | .failed e => ⟨Except.error e, [], [], 1⟩
    | .rateLimited =>
      let t := fetchGo f (i + 1) n
      ⟨t.result, rateLimitRecord :: t.events, RATE_LIMIT_DELAY :: t.sleeps, t.attempts + 1⟩

/-- fetchWithRateLimitHandling from the source, as a function of the
outcome oracle of the wrapped operation. -/
def fetchWithRateLimitHandling {α : Type} (f : Nat → Outcome α) : FetchTrace α :=
  fetchGo f 0 maxRetries

/-- The repo_cache table: repo_id -> (payload, timestamp). -/
abbrev RepoCacheTable := String → Option ((RepoInfo × List Influencer) × Int)

/-- The user_cache table: login -> (profile, timestamp). -/
abbrev UserCacheTable := String → Option (Influencer × Int)

/-- getCachedRepo from the source: a hit only when the row exists and
now - timestamp < CACHE_TTL; otherwise a miss (stale rows stay in the
table but are not returned). -/
def getCachedRepo (cache : RepoCacheTable) (now : Int) (repoId : String) :
    Option (RepoInfo × List Influencer) :=
  match cache repoId with
  | some (d, ts) => if now - ts < CACHE_TTL then some d else none
  | none => none

/-- getCachedUser from the source, same logic as getCachedRepo but on
the user_cache table. -/
def getCachedUser (cache : UserCacheTable) (now : Int) (login : String) :
    Option Influencer :=
  match cache login with
  | some (d, ts) => if now - ts < CACHE_TTL then some d else none
  | none => none

/-- First-occurrence deduplication, the semantics of the JavaScript
expression [...new Set(list)] (insertion order, duplicates dropped). -/
def dedupFirst (seen : List String) : List String → List String
  | [] => []
  | x :: xs => if x ∈ seen then dedupFirst seen xs else x :: dedupFirst (x :: seen) xs

/-- The deduplicated union of stargazer logins and fork-owner logins. -/
def uniqueUsers (stargazers : List SimpleUser) (forks : List Fork) : List String :=
  dedupFirst [] (stargazers.map SimpleUser.login ++ forks.map (fun fk => fk.owner.login))

/-- The candidate set, truncated to MAX_USERS_TO_PROCESS. -/
def candidateUsers (stargazers : List SimpleUser) (forks : List Fork) : List String :=
  (uniqueUsers stargazers forks).take MAX_USERS_TO_PROCESS

/-- The sort order used at userDetails.sort((a, b) => b.score - a.score):
a may precede b exactly when b.score <= a.score. -/
def scoreRel (a b : Influencer) : Prop := b.score ≤ a.score

instance : DecidableRel scoreRel :=
  fun a b => inferInstanceAs (Decidable (b.score ≤ a.score))

instance : IsTotal Influencer scoreRel := ⟨fun a b => le_total b.score a.score⟩

instance : IsTrans Influencer scoreRel := ⟨fun _ _ _ hab hbc => le_trans hbc hab⟩

/-- Observable output of one enrichment worker call: the progress
events it emitted, how many upstream calls it made, and the profile it
produced (none on failure). -/
structure WorkerOut where
  events : List Record
  calls : Nat
  profile : Option Influencer

/-- Observable output of the batch loop. -/
structure BatchOut where
  events : List Record
  calls : Nat
  profiles : List Influencer

/-- The status line sent before each batch. -/
def batchStatus (i total : Nat) : String :=
  s!"Processing users {i + 1} to {min (i + CONCURRENCY_LIMIT) total}"

/-- The progress value sent before each batch:
30 + (i / usersToProcess.length) * 60. -/
def batchProgress (i total : Nat) : ℚ := 30 + ((i : ℚ) / (total : ℚ)) * 60

/-- The batch loop of the POST handler: consecutive slices of size
CONCURRENCY_LIMIT; before each batch one progress update is emitted;
the workers of a batch run, their null results are discarded and the
rest collected in batch order. -/
def batchRun (worker : String → WorkerOut) (total : Nat) :
    Nat → List String → BatchOut
  | _, [] => ⟨[], 0, []⟩
  | i, x :: xs =>
    let l := x :: xs
    let outs := (l.take CONCURRENCY_LIMIT).map worker
    let rest := batchRun worker total (i + CONCURRENCY_LIMIT) (l.drop CONCURRENCY_LIMIT)
    ⟨Record.update (batchStatus i total) (batchProgress i total) ::
        ((outs.map WorkerOut.events).flatten ++ rest.events),
      (outs.map WorkerOut.calls).sum + rest.calls,
      outs.filterMap WorkerOut.profile ++ rest.profiles⟩
termination_by i l => l.length
decreasing_by
  simp only [List.length_drop, List.length_cons, CONCURRENCY_LIMIT]
  omega

/-- One run of the batch scheduler followed by the final descending
stable sort by score. -/
def rank (worker : String → WorkerOut) (logins : List String) : List Influencer :=
  List.insertionSort scoreRel (batchRun worker logins.length 0 logins).profiles

/-- The profiles collected by the scheduler before sorting: the
non-null worker results in encounter order. -/
def collectedProfiles (worker : String → WorkerOut) (logins : List String) :
    List Influencer :=
  logins.filterMap fun l => (worker l).profile

/-- Environment of one POST request: request data, the cache tables,
the clock, and the outcome oracles of every upstream operation. -/
structure Env where
  hasApiKey : Bool
  repoUrl : Option String
  now : Int
  repoCache : RepoCacheTable
  userCache : UserCacheTable
  repoGet : Nat → Outcome RepoData
  stargazersFetch : Nat → Outcome (List SimpleUser)
  forksFetch : Nat → Outcome (List Fork)
  userFetch : String → Nat → Outcome UserData
  userReposFetch : String → Nat → Outcome (List RepoItem)
  userEventsFetch : String → Nat → Outcome (List EventItem)

/-- processUser from the source including its user-cache short-circuit:
on a fresh hit the cached profile is returned with no fetching;
otherwise the three fetches run through the rate-limited fetcher and
the fresh-fetch body builds the profile (none if any fetch failed). -/
def processUserRun (env : Env) (login : String) : WorkerOut :=
  match getCachedUser env.userCache env.now login with
  | some cached => ⟨[], 0, some cached⟩
  | none =>
    let tu := fetchWithRateLimitHandling (env.userFetch login)
    let tr := fetchWithRateLimitHandling (env.userReposFetch login)
    let te := fetchWithRateLimitHandling (env.userEventsFetch login)
    ⟨tu.events ++ tr.events ++ te.events,
      tu.attempts + tr.attempts + te.attempts,
      processUser login tu.result tr.result te.result⟩

/-- Splitting a character list at every occurrence of a separator,
keeping empty segments: the semantics of JavaScript split for a
single-character separator. -/
def splitCharAux (sep : Char) : List Char → List Char → List (List Char)
  | [], acc => [acc.reverse]
  | c :: cs, acc =>
    if c = sep then acc.reverse :: splitCharAux sep cs []
    else splitCharAux sep cs (c :: acc)

/-- JavaScript str.split(sep) for a single-character separator. -/
def jsSplit (s : String) (sep : Char) : List String :=
  (splitCharAux sep s.toList []).map List.asString

/-- JavaScript str.endsWith(c) for a single-character argument. -/
def jsEndsWith (s : String) (c : Char) : Bool :=
  match s.toList.getLast? with
  | some c2 => c2 = c
  | none => false

/-- JavaScript str.slice(0, -1): the string without its last
character. -/
def jsDropLast (s : String) : String := s.toList.dropLast.asString

/-- The repoUrl validation and parsing steps of the POST handler, in
source order, returning either (owner, repo) or the message of the
single update record the handler emits for that request.

Fidelity notes, traced from the source:
- body.repoUrl is destructured by const { repoUrl } = body; an absent
  repoUrl makes repoUrl.endsWith throw a TypeError that the catch
  block reports ("Cannot read properties of undefined"; the parenthesised
  property part of the JavaScript message is elided here).
- when the URL ends with a trailing slash, the handler executes
  repoUrl = repoUrl.slice(0, -1) - an assignment to the const binding
  declared above, which in JavaScript (strict module code) throws
  TypeError: Assignment to constant variable., reported by the catch
  block.  The slash is therefore never actually stripped.
- owner and repo are the last two components of repoUrl.split('/');
  if either is missing or empty the handler reports an invalid URL. -/
def parseRepoUrl : Option String → Except String (String × String)
  | none => Except.error "Error: Cannot read properties of undefined"
  | some url =>
    if jsEndsWith url '/' then
      Except.error "Error: Assignment to constant variable."
    else if url = "" then
      Except.error "Repository URL is required"
    else
      let parts := jsSplit url '/'
      let owner := parts.getD (parts.length - 2) ""
      let repo := parts.getD (parts.length - 1) ""
      if parts.length < 2 ∨ owner = "" ∨ repo = "" then
        Except.error "Invalid repository URL"
      else
        Except.ok (owner, repo)

/-- The intended parsing written from the specification words: a URL of
the form .../{owner}/{repo} with a trailing slash tolerated (the slash
is stripped, then the last two path components are taken).  Named and
kept apart from parseRepoUrl (the source behaviour) to exhibit their
divergence on trailing-slash inputs. -/
def specParseRepoUrl (repoUrl : String) : Except String (String × String) :=
  let url := if jsEndsWith repoUrl '/' then jsDropLast repoUrl else repoUrl
  if url = "" then
    Except.error "Repository URL is required"
  else
    let parts := jsSplit url '/'
    let owner := parts.getD (parts.length - 2) ""
    let repo := parts.getD (parts.length - 1) ""
    if parts.length < 2 ∨ owner = "" ∨ repo = "" then
      Except.error "Invalid repository URL"
    else
      Except.ok (owner, repo)

/-- Observable output of one POST request: the emitted record stream in
order, and the number of upstream API calls issued. -/
structure PostRun where
  records : List Record
  apiCalls : Nat
deriving DecidableEq

/-- The POST handler pipeline, in source order: API-key check, repoUrl
parsing, the repo-cache short-circuit, repository metadata fetch,
stargazer and fork collection, the batch loop, the final sort, and the
terminal records.  Every failure of a wrapped fetch reaches the catch
block, which emits one error update at progress 100. -/
def postRun (env : Env) : PostRun :=
  if env.hasApiKey = false then
    ⟨[Record.update "GitHub API key is required" 100], 0⟩
  else
    match parseRepoUrl env.repoUrl with
    | .error m => ⟨[Record.update m 100], 0⟩
    | .ok (owner, repo) =>
      match getCachedRepo env.repoCache env.now (owner ++ "/" ++ repo) with
      | some cached =>
        ⟨[Record.update "Retrieving cached result" 50,
          Record.payload cached.1 cached.2,
          Record.update "Analysis complete (cached)" 100], 0⟩
      | none =>
        let tRepo := fetchWithRateLimitHandling env.repoGet
        match tRepo.result with
        | .error e =>
          ⟨(Record.update "Fetching repository information" 10 :: tRepo.events) ++
            [Record.update ("Error: " ++ e) 100], tRepo.attempts⟩
        | .ok repoData =>
          let tStars := fetchWithRateLimitHandling env.stargazersFetch
          let tForks := fetchWithRateLimitHandling env.forksFetch
          let pre :=
            Record.update "Fetching repository information" 10 :: tRepo.events ++
              Record.update "Fetching stargazers and forks" 20 ::
                (tStars.events ++ tForks.events)
          let calls := tRepo.attempts + tStars.attempts + tForks.attempts
          match tStars.result, tForks.result with
          | .error e, _ => ⟨pre ++ [Record.update ("Error: " ++ e) 100], calls⟩
          | .ok _, .error e => ⟨pre ++ [Record.update ("Error: " ++ e) 100], calls⟩
          | .ok stargazers, .ok forks =>
            let users := candidateUsers stargazers forks
            let b := batchRun (processUserRun env) users.length 0 users
            let sorted := List.insertionSort scoreRel b.profiles
            let ri : RepoInfo := ⟨repoData.name, repoData.description,
              repoData.stargazers_count, repoData.forks_count⟩
            ⟨pre ++ b.events ++
              [Record.update "Analysis complete" 100, Record.payload ri sorted],
              calls + b.calls⟩

/-- The stream shape asserted by the specification: zero or more
status/progress updates followed by exactly one terminal record (the
result payload, or an update at progress 100 carrying the error
status), with nothing after the terminal record. -/
def ClaimStreamShape (rs : List Record) : Prop :=
  ∃ ps t, rs = ps ++ [t] ∧ (∀ r ∈ ps, r.isUpdate = true) ∧
    (t.isPayload = true ∨ ∃ s, t = Record.update s 100)

/-- The stream actually produced on a repo-cache hit: an update at 50,
the payload, then one more update at 100 after the payload. -/
def CachedStreamShape (rs : List Record) : Prop :=
  ∃ ri infl, rs =
    [Record.update "Retrieving cached result" 50, Record.payload ri infl,
      Record.update "Analysis complete (cached)" 100]

/-- Sample upstream user profile used to evaluate the embedding on
concrete inputs. -/
def sampleUser : UserData :=
  { name := some "Alice", avatar_url := "https://example.com/a.png",
    bio := some "dev", company := some "Acme", location := some "Earth",
    followers := 10, following := 3, public_repos := 3, public_gists := 2 }

/-- Sample first repository page (two repositories, 5 and 7 stars). -/
def sampleRepos : List RepoItem := [⟨5⟩, ⟨7⟩]

/-- Sample first events page (four events). -/
def sampleEvents : List EventItem := [⟨1⟩, ⟨2⟩, ⟨3⟩, ⟨4⟩]

/-- The profile processUser produces from the sample inputs. -/
def sampleProfile : Influencer :=
  { login := "alice", name := "Alice", avatarUrl := "https://example.com/a.png",
    bio := some "dev", company := some "Acme", location := some "Earth",
    stars := 12, followers := 10, following := 3, contributions := 5,
    recentActivity := 4, score := calculateScore 12 10 5 4 }

/-- An upstream profile with no display name (name is null) and no
other data. -/
def ghostUser : UserData :=
  { name := none, avatar_url := "", bio := none, company := none,
    location := none, followers := 0, following := 0, public_repos := 0,
    public_gists := 0 }

/-- The profile produced for login "octocat" from ghostUser. -/
def octocatProfile : Influencer :=
  { login := "octocat", name := "octocat", avatarUrl := "", bio := none,
    company := none, location := none, stars := 0, followers := 0,
    following := 0, contributions := 0, recentActivity := 0,
    score := calculateScore 0 0 0 0 }

/-- A minimal successful enrichment result for a given login. -/
def plainProfile (login : String) : Influencer :=
  { login := login, name := login, avatarUrl := "", bio := none,
    company := none, location := none, stars := 0, followers := 0,
    following := 0, contributions := 0, recentActivity := 0,
    score := calculateScore 0 0 0 0 }

/-- A worker whose enrichment of "ghost-user" fails (returns none) and
succeeds for every other login. -/
def ghostWorker (l : String) : WorkerOut :=
  ⟨[], 0, if l = "ghost-user" then none else some (plainProfile l)⟩

/-- A three-candidate login list containing the failing login. -/
def ghostLogins : List String := ["alice", "ghost-user", "bob"]

/-- A sample cached analysis payload. -/
def samplePayload : RepoInfo × List Influencer :=
  (⟨"Hello-World", some "demo", 3, 1⟩, [sampleProfile])

/-- A request environment whose repo cache holds a fresh entry for the
requested repository; all network oracles fail, so any upstream call
would be observable. -/
def cachedEnv : Env :=
  { hasApiKey := true
    repoUrl := some "https://github.com/octocat/Hello-World"
    now := 1000
    repoCache := fun k =>
      if k = "octocat/Hello-World" then some (samplePayload, 500) else none
    userCache := fun _ => none
    repoGet := fun _ => Outcome.failed "unreachable"
    stargazersFetch := fun _ => Outcome.failed "unreachable"
    forksFetch := fun _ => Outcome.failed "unreachable"
    userFetch := fun _ _ => Outcome.failed "unreachable"
    userReposFetch := fun _ _ => Outcome.failed "unreachable"
    userEventsFetch := fun _ _ => Outcome.failed "unreachable" }

/-- The same environment with a trailing slash on the repository URL. -/
def slashEnv : Env :=
  { cachedEnv with repoUrl := some "https://github.com/octocat/Hello-World/" }

/-- An outcome oracle that is rate limited twice and then fails with a
non-rate-limit error. -/
def sampleRLOracle : Nat → Outcome Nat :=
  fun i => if i < 2 then Outcome.rateLimited else Outcome.failed "boom"

end Influencers

namespace Influencers

/-- C9: holding followers, contributions and recentActivity fixed, the
score computed by calculateScore is strictly increasing in
starsEarned. -/
theorem calculateScore_strictMono_stars (s1 s2 f c a : Nat) (h : s1 < s2) :
    calculateScore s1 f c a < calculateScore s2 f c a := by
  unfold calculateScore
  have hq : (s1 : ℚ) < (s2 : ℚ) := by exact_mod_cast h
  have h25 : (0 : ℚ) < 2.5 := by norm_num
  nlinarith [mul_lt_mul_of_pos_right hq h25]

/-- Witness for C9 at starsEarned 3 < 5 with the other metrics fixed
at 1. -/
theorem calculateScore_strictMono_stars_witness :
    calculateScore 3 1 1 1 < calculateScore 5 1 1 1 :=
  calculateScore_strictMono_stars 3 5 1 1 1 (by norm_num)

/-- C1: every profile produced by a fresh enrichment has
starsEarned equal to the fold of stargazers_count over the fetched
repository page, contributions equal to public_repos + public_gists,
recentActivity equal to the length of the fetched events page, and
score equal to starsEarned * 2.5 + followers * 2.0 +
contributions * 0.1 + recentActivity * 0.1. -/
theorem processUser_score_formula (login : String) (u : UserData)
    (rs : List RepoItem) (es : List EventItem) (p : Influencer)
    (h : processUser login (.ok u) (.ok rs) (.ok es) = some p) :
    p.stars = rs.foldl (fun acc repoItem => acc + repoItem.stargazers_count) 0 ∧
    p.followers = u.followers ∧
    p.contributions = u.public_repos + u.public_gists ∧
    p.recentActivity = es.length ∧
    p.score = (p.stars : ℚ) * 2.5 + (p.followers : ℚ) * 2.0 +
      (p.contributions : ℚ) * 0.1 + (p.recentActivity : ℚ) * 0.1 := by
  simp only [processUser, Option.some.injEq] at h
  subst h
  exact ⟨rfl, rfl, rfl, rfl, rfl⟩

/-- Witness for C1 on the sample inputs (12 stars over the page, 10
followers, 5 contributions, 4 recent events). -/
theorem processUser_score_formula_witness :
    sampleProfile.stars =
      sampleRepos.foldl (fun acc repoItem => acc + repoItem.stargazers_count) 0 ∧
    sampleProfile.followers = sampleUser.followers ∧
    sampleProfile.contributions = sampleUser.public_repos + sampleUser.public_gists ∧
    sampleProfile.recentActivity = sampleEvents.length ∧
    sampleProfile.score = (sampleProfile.stars : ℚ) * 2.5 +
      (sampleProfile.followers : ℚ) * 2.0 + (sampleProfile.contributions : ℚ) * 0.1 +
      (sampleProfile.recentActivity : ℚ) * 0.1 :=
  processUser_score_formula "alice" sampleUser sampleRepos sampleEvents sampleProfile rfl

/-- The first-occurrence deduplication produces a list with no
duplicates, none of whose members were already seen. -/
theorem dedupFirst_spec : ∀ (l seen : List String),
    (dedupFirst seen l).Nodup ∧ ∀ x ∈ dedupFirst seen l, x ∉ seen
  | [], _ => by simp [dedupFirst]
  | x :: xs, seen => by
    by_cases hx : x ∈ seen
    · simpa [dedupFirst, hx] using dedupFirst_spec xs seen
    · have ih := dedupFirst_spec xs (x :: seen)
      rw [dedupFirst, if_neg hx]
      refine ⟨List.nodup_cons.mpr ⟨fun hmem => (ih.2 x hmem) (List.mem_cons_self x seen), ih.1⟩,
        fun y hy => ?_⟩
      rcases List.mem_cons.mp hy with rfl | hy2
      · exact hx
      · exact fun hys => (ih.2 y hy2) (List.mem_cons_of_mem x hys)

/-- C6: the candidate-user set contains each login at most once and
never exceeds 1000 entries. -/
theorem candidateUsers_dedup_bounded (stargazers : List SimpleUser) (forks : List Fork) :
    (∀ login, (candidateUsers stargazers forks).count login ≤ 1) ∧
      (candidateUsers stargazers forks).length ≤ 1000 := by
  constructor
  · intro login
    have hnodup : (uniqueUsers stargazers forks).Nodup := (dedupFirst_spec _ []).1
    have htake : (candidateUsers stargazers forks).Nodup :=
      (List.take_sublist MAX_USERS_TO_PROCESS _).nodup hnodup
    exact List.nodup_iff_count_le_one.mp htake login
  · have h := List.length_take MAX_USERS_TO_PROCESS (uniqueUsers stargazers forks)
    simp only [candidateUsers, MAX_USERS_TO_PROCESS] at h ⊢
    omega

/-- C10 counterexample: a fresh fetch for the empty login of a profile
whose upstream name is null produces an output profile whose name field
is the empty string, so the name is not always nonempty. -/
theorem processUser_name_empty_cex :
    (processUser "" (.ok ghostUser) (.ok []) (.ok [])).map Influencer.name = some "" := rfl

/-- C10 amended: when the upstream profile has no display name the
produced name falls back to the login, hence it is never null (the
field always holds a string) and it is nonempty whenever the login is
nonempty. -/
theorem processUser_name_fallback (login : String) (u : UserData)
    (rs : List RepoItem) (es : List EventItem) (p : Influencer)
    (hname : u.name = none)
    (h : processUser login (.ok u) (.ok rs) (.ok es) = some p) :
    p.name = login ∧ (login ≠ "" → p.name ≠ "") := by
  simp only [processUser, Option.some.injEq] at h
  subst h
  simp [hname]

/-- Witness for the amended C10 at login "octocat" with a null upstream
name. -/
theorem processUser_name_fallback_witness :
    octocatProfile.name = "octocat" ∧ ("octocat" ≠ "" → octocatProfile.name ≠ "") :=
  processUser_name_fallback "octocat" ghostUser [] [] octocatProfile rfl rfl

/-- When every attempt up to the fuel bound is rate limited, the retry
loop exhausts its fuel: terminal error, one sentinel event and one
fixed sleep per attempt. -/
theorem fetchGo_all_rateLimited {α : Type} (f : Nat → Outcome α) :
    ∀ (n i : Nat), (∀ k, k < n → f (i + k) = Outcome.rateLimited) →
      fetchGo f i n = ⟨Except.error "Max retries reached for rate limit",
        List.replicate n rateLimitRecord, List.replicate n RATE_LIMIT_DELAY, n⟩
  | 0, _, _ => rfl
  | n + 1, i, h => by
    have h0 : f i = Outcome.rateLimited := by simpa using h 0 (Nat.succ_pos n)
    have ih := fetchGo_all_rateLimited f n (i + 1) (fun k hk => by
      have hs := h (k + 1) (by omega)
      rwa [show i + (k + 1) = i + 1 + k by omega] at hs)
    simp [fetchGo, h0, ih, List.replicate_succ]

/-- When the first non-rate-limited attempt (within the fuel bound)
fails with a non-rate-limit error, the loop propagates that error after
exactly one sentinel event and one sleep per preceding rate-limited
attempt, with no further attempts. -/
theorem fetchGo_failed_at {α : Type} (f : Nat → Outcome α) :
    ∀ (j n i : Nat) (e : String), j < n →
      (∀ k, k < j → f (i + k) = Outcome.rateLimited) →
      f (i + j) = Outcome.failed e →
      fetchGo f i n = ⟨Except.error e, List.replicate j rateLimitRecord,
        List.replicate j RATE_LIMIT_DELAY, j + 1⟩
  | 0, n, i, e, hj, _, hf => by
    cases n with
    | zero => omega
    | succ m =>
      rw [Nat.add_zero] at hf
      simp [fetchGo, hf]
  | j + 1, n, i, e, hj, hrl, hf => by
    cases n with
    | zero => omega
    | succ m =>
      have h0 : f i = Outcome.rateLimited := by simpa using hrl 0 (by omega)
      have ih := fetchGo_failed_at f j m (i + 1) e (by omega)
        (fun k hk => by
          have hs := hrl (k + 1) (by omega)
          rwa [show i + (k + 1) = i + 1 + k by omega] at hs)
        (by rwa [show i + (j + 1) = i + 1 + j by omega] at hf)
      simp [fetchGo, h0, ih, List.replicate_succ]

/-- When the first non-rate-limited attempt (within the fuel bound)
succeeds, the loop returns its value after exactly one sentinel event
and one sleep per preceding rate-limited attempt. -/
theorem fetchGo_ok_at {α : Type} (f : Nat → Outcome α) :
    ∀ (j n i : Nat) (v : α), j < n →
      (∀ k, k < j → f (i + k) = Outcome.rateLimited) →
      f (i + j) = Outcome.ok v →
      fetchGo f i n = ⟨Except.ok v, List.replicate j rateLimitRecord,
        List.replicate j RATE_LIMIT_DELAY, j + 1⟩
  | 0, n, i, v, hj, _, hf => by
    cases n with
    | zero => omega
    | succ m =>
      rw [Nat.add_zero] at hf
      simp [fetchGo, hf]
  | j + 1, n, i, v, hj, hrl, hf => by
    cases n with
    | zero => omega
    | succ m =>
      have h0 : f i = Outcome.rateLimited := by simpa using hrl 0 (by omega)
      have ih := fetchGo_ok_at f j m (i + 1) v (by omega)
        (fun k hk => by
          have hs := hrl (k + 1) (by omega)
          rwa [show i + (k + 1) = i + 1 + k by omega] at hs)
        (by rwa [show i + (j + 1) = i + 1 + j by omega] at hf)
      simp [fetchGo, h0, ih, List.replicate_succ]

/-- C4: a non-rate-limit failure propagates immediately with no retry;
every rate-limit failure emits one progress event carrying the negative
sentinel and sleeps the fixed 15000 ms before the retry; and 25
consecutive rate-limited attempts exhaust the cap, failing with the
terminal rate-limit-retries-exhausted error (a success within the cap
returns the value the same way). -/
theorem fetchWithRateLimitHandling_spec {α : Type} :
    (∀ (f : Nat → Outcome α) (j : Nat) (e : String), j < maxRetries →
        (∀ k, k < j → f k = Outcome.rateLimited) → f j = Outcome.failed e →
        fetchWithRateLimitHandling f = ⟨Except.error e,
          List.replicate j rateLimitRecord, List.replicate j RATE_LIMIT_DELAY, j + 1⟩) ∧
    (∀ (f : Nat → Outcome α) (j : Nat) (v : α), j < maxRetries →
        (∀ k, k < j → f k = Outcome.rateLimited) → f j = Outcome.ok v →
        fetchWithRateLimitHandling f = ⟨Except.ok v,
          List.replicate j rateLimitRecord, List.replicate j RATE_LIMIT_DELAY, j + 1⟩) ∧
    (∀ f : Nat → Outcome α, (∀ k, k < maxRetries → f k = Outcome.rateLimited) →
        fetchWithRateLimitHandling f = ⟨Except.error "Max retries reached for rate limit",
          List.replicate maxRetries rateLimitRecord,
          List.replicate maxRetries RATE_LIMIT_DELAY, maxRetries⟩) := by
  refine ⟨fun f j e hj hrl hf => ?_, fun f j v hj hrl hf => ?_, fun f h => ?_⟩
  · exact fetchGo_failed_at f j maxRetries 0 e hj (by simpa using hrl) (by simpa using hf)
  · exact fetchGo_ok_at f j maxRetries 0 v hj (by simpa using hrl) (by simpa using hf)
  · exact fetchGo_all_rateLimited f maxRetries 0 (by simpa using h)

/-- Witness for C4: an oracle that is rate limited twice then fails
with a non-rate-limit error stops after three attempts with two
sentinel events and two sleeps; an always-rate-limited oracle exhausts
all 25 attempts and fails terminally. -/
theorem fetchWithRateLimitHandling_spec_witness :
    fetchWithRateLimitHandling sampleRLOracle =
      ⟨Except.error "boom", List.replicate 2 rateLimitRecord,
        List.replicate 2 RATE_LIMIT_DELAY, 3⟩ ∧
    fetchWithRateLimitHandling (fun _ => (Outcome.rateLimited : Outcome Nat)) =
      ⟨Except.error "Max retries reached for rate limit",
        List.replicate maxRetries rateLimitRecord,
        List.replicate maxRetries RATE_LIMIT_DELAY, maxRetries⟩ :=
  ⟨(fetchWithRateLimitHandling_spec (α := Nat)).1 sampleRLOracle 2 "boom"
      (by norm_num [maxRetries])
      (fun k hk => by simp [sampleRLOracle, hk])
      (by norm_num [sampleRLOracle]),
    (fetchWithRateLimitHandling_spec (α := Nat)).2.2 _ (fun k _ => rfl)⟩

/-- The batch loop collects exactly the non-null worker results over
the whole login list, in encounter order (the batching is invisible in
the collected sequence). -/
theorem batchRun_profiles (worker : String → WorkerOut) (total : Nat) :
    ∀ (i : Nat) (l : List String),
      (batchRun worker total i l).profiles = l.filterMap fun s => (worker s).profile
  | _, [] => by simp [batchRun]
  | i, x :: xs => by
    have ih := batchRun_profiles worker total (i + CONCURRENCY_LIMIT)
      ((x :: xs).drop CONCURRENCY_LIMIT)
    rw [batchRun]
    simp only [List.filterMap_map, ih]
    rw [show (WorkerOut.profile ∘ worker) = fun s => (worker s).profile from rfl,
      ← List.filterMap_append, List.take_append_drop]
termination_by i l => l.length
decreasing_by
  simp only [List.length_drop, List.length_cons, CONCURRENCY_LIMIT]
  omega

/-- Inserting an element into a list keeps, for every score value s,
the same filtered subsequence except that an element of score s is
prepended to it: orderedInsert under scoreRel places the new element
before every element of equal or smaller score it precedes. -/
theorem filter_score_orderedInsert (s : ℚ) (x : Influencer) :
    ∀ l : List Influencer,
      (List.orderedInsert scoreRel x l).filter (fun p => decide (p.score = s)) =
        if x.score = s then x :: l.filter (fun p => decide (p.score = s))
        else l.filter (fun p => decide (p.score = s))
  | [] => by
    by_cases hx : x.score = s <;> simp [List.orderedInsert, List.filter, hx]
  | y :: ys => by
    by_cases hxy : scoreRel x y
    · rw [List.orderedInsert, if_pos hxy]
      by_cases hx : x.score = s <;> simp [List.filter_cons, hx]
    · rw [List.orderedInsert, if_neg hxy]
      have ih := filter_score_orderedInsert s x ys
      have hyx : x.score < y.score := by
        simp only [scoreRel] at hxy
        exact not_le.mp hxy
      by_cases hx : x.score = s
      · have hy : y.score ≠ s := by
          intro hc
          rw [hc, ← hx] at hyx
          exact lt_irrefl _ hyx
        simp [List.filter_cons, hx, hy, ih]
      · by_cases hy : y.score = s <;> simp [List.filter_cons, hx, hy, ih]

/-- Insertion sort under scoreRel is stable: for every score value s,
the subsequence of elements with score s is unchanged. -/
theorem filter_score_insertionSort (s : ℚ) :
    ∀ l : List Influencer,
      (List.insertionSort scoreRel l).filter (fun p => decide (p.score = s)) =
        l.filter (fun p => decide (p.score = s))
  | [] => rfl
  | x :: xs => by
    rw [List.insertionSort, filter_score_orderedInsert s x (List.insertionSort scoreRel xs)]
    have ih := filter_score_insertionSort s xs
    by_cases hx : x.score = s <;> simp [List.filter_cons, hx, ih]

/-- C2: the final influencers sequence of a scheduler run is the
collected non-null profiles stable-sorted by score descending: it is a
permutation of the collected profiles, it is sorted so that every
profile's score is greater than or equal to every later one's, and for
every score value the profiles carrying that score appear in their
original encounter order (the filtered subsequences coincide). -/
theorem rank_sorted_stable (worker : String → WorkerOut) (logins : List String) :
    (rank worker logins).Perm (collectedProfiles worker logins) ∧
    List.Sorted scoreRel (rank worker logins) ∧
    ∀ s : ℚ, (rank worker logins).filter (fun p => decide (p.score = s)) =
      (collectedProfiles worker logins).filter (fun p => decide (p.score = s)) := by
  refine ⟨?_, List.sorted_insertionSort scoreRel _, fun s => ?_⟩
  · unfold rank collectedProfiles
    rw [batchRun_profiles]
    exact List.perm_insertionSort scoreRel _
  · unfold rank collectedProfiles
    rw [filter_score_insertionSort, batchRun_profiles]

/-- When every element maps to some value, filterMap preserves the
length. -/
theorem length_filterMap_all_some {β : Type} (f : String → Option β) :
    ∀ l : List String, (∀ x ∈ l, (f x).isSome) → (l.filterMap f).length = l.length
  | [], _ => rfl
  | x :: xs, h => by
    obtain ⟨b, hb⟩ := Option.isSome_iff_exists.mp (h x (List.mem_cons_self x xs))
    rw [List.filterMap_cons_some hb]
    simp [length_filterMap_all_some f xs (fun y hy => h y (List.mem_cons_of_mem x hy))]

/-- When exactly one element of a duplicate-free list maps to none, the
filterMap drops exactly that element. -/
theorem length_filterMap_one_none {β : Type} (f : String → Option β) :
    ∀ (l : List String) (g : String), l.Nodup → g ∈ l → f g = none →
      (∀ x ∈ l, x ≠ g → (f x).isSome) → (l.filterMap f).length = l.length - 1
  | [], g, _, hg, _, _ => absurd hg (List.not_mem_nil g)
  | x :: xs, g, hnd, hg, hfg, hsome => by
    rcases List.mem_cons.mp hg with heq | hgxs
    · subst heq
      rw [List.filterMap_cons_none hfg]
      have hall : ∀ y ∈ xs, (f y).isSome := by
        intro y hy
        have hne : y ≠ g := fun he => (List.nodup_cons.mp hnd).1 (he ▸ hy)
        exact hsome y (List.mem_cons_of_mem g hy) hne
      rw [length_filterMap_all_some f xs hall]
      simp
    · have hxg : x ≠ g := fun he => (List.nodup_cons.mp hnd).1 (he ▸ hgxs)
      obtain ⟨b, hb⟩ :=
        Option.isSome_iff_exists.mp (hsome x (List.mem_cons_self x xs) hxg)
      rw [List.filterMap_cons_some hb]
      have ih := length_filterMap_one_none f xs g (List.nodup_cons.mp hnd).2 hgxs hfg
        (fun y hy hne => hsome y (List.mem_cons_of_mem x hy) hne)
      have hpos : 1 ≤ xs.length := List.length_pos.mpr (List.ne_nil_of_mem hgxs)
      simp only [List.length_cons, ih]
      omega

/-- C5: an enrichment whose user, repositories or events fetch fails
returns null instead of propagating the error; the scheduler discards
the null, so a candidate list with exactly one failing login yields a
ranked list of N - 1 entries and no error reaches the caller. -/
theorem enrichment_failure_isolated :
    (∀ (login e : String) (u : Except String UserData)
        (rs : Except String (List RepoItem)) (es : Except String (List EventItem)),
        processUser login (.error e) rs es = none ∧
        processUser login u (.error e) es = none ∧
        processUser login u rs (.error e) = none) ∧
    (∀ (worker : String → WorkerOut) (logins : List String) (g : String),
        logins.Nodup → g ∈ logins → (worker g).profile = none →
        (∀ l ∈ logins, l ≠ g → ((worker l).profile).isSome) →
        (rank worker logins).length = logins.length - 1) := by
  constructor
  · intro login e u rs es
    refine ⟨rfl, ?_, ?_⟩
    · cases u <;> rfl
    · cases u <;> cases rs <;> rfl
  · intro worker logins g hnd hmem hnone hsome
    rw [rank, List.length_insertionSort, batchRun_profiles]
    exact length_filterMap_one_none _ logins g hnd hmem hnone hsome

/-- Witness for C5: the three-candidate list with the failing login
"ghost-user" ranks to a list of length 3 - 1, and a failed user fetch
makes processUser return none. -/
theorem enrichment_failure_isolated_witness :
    processUser "ghost-user" (.error "deleted") (.ok []) (.ok []) = none ∧
    (rank ghostWorker ghostLogins).length = ghostLogins.length - 1 :=
  ⟨(enrichment_failure_isolated.1 "ghost-user" "deleted"
      (.error "deleted") (.ok []) (.ok [])).1,
    enrichment_failure_isolated.2 ghostWorker ghostLogins "ghost-user"
      (by decide) (by decide) rfl (by decide)⟩

/-- C3: a request for a repository whose cache row is fresh
(now - timestamp < CACHE_TTL) is answered from the cache with zero
upstream API calls; a cache read hits exactly when such a fresh row
exists; and a stale row (age at least CACHE_TTL) reads as a miss. -/
theorem repoCache_fresh_hit :
    (∀ (env : Env) (owner repo : String)
        (payload : RepoInfo × List Influencer) (ts : Int),
        env.hasApiKey = true →
        parseRepoUrl env.repoUrl = .ok (owner, repo) →
        env.repoCache (owner ++ "/" ++ repo) = some (payload, ts) →
        env.now - ts < CACHE_TTL →
        postRun env =
          ⟨[Record.update "Retrieving cached result" 50,
            Record.payload payload.1 payload.2,
            Record.update "Analysis complete (cached)" 100], 0⟩) ∧
    (∀ (cache : RepoCacheTable) (now : Int) (k : String)
        (d : RepoInfo × List Influencer),
        getCachedRepo cache now k = some d ↔
          ∃ ts, cache k = some (d, ts) ∧ now - ts < CACHE_TTL) ∧
    (∀ (cache : RepoCacheTable) (now : Int) (k : String)
        (d : RepoInfo × List Influencer) (ts : Int),
        cache k = some (d, ts) → CACHE_TTL ≤ now - ts →
        getCachedRepo cache now k = none) := by
  refine ⟨?_, ?_, ?_⟩
  · intro env owner repo payload ts hkey hparse hcache hfresh
    have hhit : getCachedRepo env.repoCache env.now (owner ++ "/" ++ repo) =
        some payload := by
      simp [getCachedRepo, hcache, hfresh]
    simp [postRun, hkey, hparse, hhit]
  · intro cache now k d
    constructor
    · intro h
      rcases hc : cache k with _ | ⟨d2, ts⟩
      · simp [getCachedRepo, hc] at h
      · simp only [getCachedRepo, hc] at h
        by_cases hts : now - ts < CACHE_TTL
        · rw [if_pos hts] at h
          obtain rfl : d2 = d := Option.some.inj h
          exact ⟨ts, rfl, hts⟩
        · rw [if_neg hts] at h
          cases h
    · rintro ⟨ts, hc, hts⟩
      simp [getCachedRepo, hc, hts]
  · intro cache now k d ts hc hts
    simp [getCachedRepo, hc, not_lt.mpr hts]

/-- Witness for C3: the sample environment with a fresh cached entry is
answered from the cache with zero API calls, and the stale / fresh read
behaviour at concrete timestamps. -/
theorem repoCache_fresh_hit_witness :
    postRun cachedEnv =
      ⟨[Record.update "Retrieving cached result" 50,
        Record.payload samplePayload.1 samplePayload.2,
        Record.update "Analysis complete (cached)" 100], 0⟩ ∧
    getCachedRepo cachedEnv.repoCache (500 + CACHE_TTL) "octocat/Hello-World" = none :=
  ⟨repoCache_fresh_hit.1 cachedEnv "octocat" "Hello-World" samplePayload 500
      rfl rfl rfl (by decide),
    repoCache_fresh_hit.2.2 cachedEnv.repoCache (500 + CACHE_TTL) "octocat/Hello-World"
      samplePayload 500 rfl (by omega)⟩

/-- C8 (code bug): a trailing-slash URL makes the handler throw
(assignment to the const repoUrl binding) and emit a single error
record instead of proceeding, while the no-slash URL and the intended
spec behaviour both parse to (octocat, Hello-World). -/
theorem trailingSlash_code_bug :
    parseRepoUrl (some "https://github.com/octocat/Hello-World/") =
      Except.error "Error: Assignment to constant variable." ∧
    specParseRepoUrl "https://github.com/octocat/Hello-World/" =
      Except.ok ("octocat", "Hello-World") ∧
    parseRepoUrl (some "https://github.com/octocat/Hello-World") =
      Except.ok ("octocat", "Hello-World") ∧
    postRun slashEnv =
      ⟨[Record.update "Error: Assignment to constant variable." 100], 0⟩ :=
  ⟨rfl, rfl, rfl, rfl⟩

/-- The retry loop only ever emits copies of the rate-limit sentinel
event. -/
theorem fetchGo_events_rl {α : Type} (f : Nat → Outcome α) :
    ∀ (n i : Nat), ∃ m : Nat, (fetchGo f i n).events = List.replicate m rateLimitRecord
  | 0, _ => ⟨0, rfl⟩
  | n + 1, i => by
    cases hf : f i with
    | ok v => exact ⟨0, by simp [fetchGo, hf]⟩
    | failed e => exact ⟨0, by simp [fetchGo, hf]⟩
    | rateLimited =>
      obtain ⟨m, hm⟩ := fetchGo_events_rl f n (i + 1)
      exact ⟨m + 1, by simp [fetchGo, hf, hm, List.replicate_succ]⟩

/-- Every event emitted by the rate-limited fetcher is a progress
update (the rate-limit sentinel). -/
theorem fetch_events_updates {α : Type} (f : Nat → Outcome α) (r : Record)
    (h : r ∈ (fetchWithRateLimitHandling f).events) : r.isUpdate = true := by
  obtain ⟨m, hm⟩ := fetchGo_events_rl f maxRetries 0
  rw [fetchWithRateLimitHandling, hm] at h
  rw [List.eq_of_mem_replicate h]
  rfl

/-- Every event emitted by one enrichment worker is a progress
update. -/
theorem processUserRun_events_updates (env : Env) (login : String) (r : Record)
    (h : r ∈ (processUserRun env login).events) : r.isUpdate = true := by
  rw [processUserRun] at h
  cases hc : getCachedUser env.userCache env.now login with
  | some cached =>
    simp only [hc] at h
    exact absurd h (List.not_mem_nil r)
  | none =>
    simp only [hc, List.append_assoc, List.mem_append] at h
    rcases h with h1 | h2 | h3
    · exact fetch_events_updates (env.userFetch login) r h1
    · exact fetch_events_updates (env.userReposFetch login) r h2
    · exact fetch_events_updates (env.userEventsFetch login) r h3

/-- Every event emitted by the batch loop is a progress update,
provided the workers only emit progress updates. -/
theorem batchRun_events_updates (worker : String → WorkerOut)
    (hw : ∀ (l : String) (r : Record), r ∈ (worker l).events → r.isUpdate = true)
    (total : Nat) :
    ∀ (i : Nat) (lg : List String) (r : Record),
      r ∈ (batchRun worker total i lg).events → r.isUpdate = true
  | _, [], r, h => by
    simp only [batchRun] at h
    exact absurd h (List.not_mem_nil r)
  | i, x :: xs, r, h => by
    simp only [batchRun] at h
    rcases List.mem_cons.mp h with rfl | h2
    · rfl
    · rcases List.mem_append.mp h2 with h3 | h4
      · obtain ⟨es, hes, hres⟩ := List.mem_flatten.mp h3
        obtain ⟨wout, hwout, hw2⟩ := List.mem_map.mp hes
        obtain ⟨l, _, hw3⟩ := List.mem_map.mp hwout
        exact hw l r (by rw [hw3, hw2]; exact hres)
      · exact batchRun_events_updates worker hw total (i + CONCURRENCY_LIMIT)
          ((x :: xs).drop CONCURRENCY_LIMIT) r h4
termination_by i lg => lg.length
decreasing_by
  simp only [List.length_drop, List.length_cons, CONCURRENCY_LIMIT]
  omega

/-- A stream of updates followed by one update at 100 satisfies the
claimed shape. -/
theorem claimShape_err (a : List Record) (ha : ∀ r ∈ a, r.isUpdate = true)
    (m : String) : ClaimStreamShape (a ++ [Record.update m 100]) :=
  ⟨a, Record.update m 100, rfl, ha, Or.inr ⟨m, rfl⟩⟩

/-- A stream of updates followed by one final update at 100 and the
payload satisfies the claimed shape. -/
theorem claimShape_success (a b : List Record)
    (ha : ∀ r ∈ a, r.isUpdate = true) (hb : ∀ r ∈ b, r.isUpdate = true)
    (s : String) (ri : RepoInfo) (infl : List Influencer) :
    ClaimStreamShape (a ++ b ++ [Record.update s 100, Record.payload ri infl]) := by
  refine ⟨a ++ b ++ [Record.update s 100], Record.payload ri infl, by simp, ?_, Or.inl rfl⟩
  intro r hr
  rcases List.mem_append.mp hr with h1 | h2
  · rcases List.mem_append.mp h1 with h3 | h4
    · exact ha r h3
    · exact hb r h4
  · rw [List.mem_singleton.mp h2]
    rfl

/-- The events emitted before the batch loop (repository metadata,
stargazer and fork collection) are all progress updates. -/
theorem pre_events_updates (env : Env) (r : Record)
    (h : r ∈ Record.update "Fetching repository information" 10 ::
      (fetchWithRateLimitHandling env.repoGet).events ++
        Record.update "Fetching stargazers and forks" 20 ::
          ((fetchWithRateLimitHandling env.stargazersFetch).events ++
            (fetchWithRateLimitHandling env.forksFetch).events)) :
    r.isUpdate = true := by
  rcases List.mem_cons.mp h with rfl | h1
  · rfl
  · rcases List.mem_append.mp h1 with h2 | h3
    · exact fetch_events_updates env.repoGet r h2
    · rcases List.mem_cons.mp h3 with rfl | h4
      · rfl
      · rcases List.mem_append.mp h4 with h5 | h6
        · exact fetch_events_updates env.stargazersFetch r h5
        · exact fetch_events_updates env.forksFetch r h6

/-- C7 counterexample: on a fresh repo-cache hit the handler emits the
result payload record and then one more progress record after it
("Analysis complete (cached)" at 100), so the emitted stream is not of
the claimed shape (progress records followed by one terminal record
with nothing after it). -/
theorem stream_shape_cex : ¬ ClaimStreamShape (postRun cachedEnv).records := by
  intro hshape
  have hrec : (postRun cachedEnv).records =
      [Record.update "Retrieving cached result" 50,
        Record.payload samplePayload.1 samplePayload.2,
        Record.update "Analysis complete (cached)" 100] := rfl
  rw [hrec] at hshape
  obtain ⟨ps, t, heq, hps, _⟩ := hshape
  cases ps with
  | nil => simp at heq
  | cons p1 ps1 =>
    cases ps1 with
    | nil => simp at heq
    | cons p2 ps2 =>
      cases ps2 with
      | nil =>
        have hp2 : p2 = Record.payload samplePayload.1 samplePayload.2 := by
          simp only [List.cons_append, List.nil_append, List.cons.injEq] at heq
          exact heq.2.1.symm
        have hupd := hps p2 (List.mem_cons_of_mem p1 (List.mem_cons_self p2 []))
        rw [hp2] at hupd
        simp [Record.isUpdate] at hupd
      | cons p3 ps3 => simp at heq

/-- C7 amended: for every request the emitted stream is finite and
either matches the claimed shape (zero or more progress records, then
exactly one terminal record - the success payload or an update at
progress 100 carrying the error status - with nothing after it), or,
exactly when the result is served from the repository cache, it is one
progress record at 50, the payload, and one final progress record at
100 after the payload. -/
theorem stream_shape_amended (env : Env) :
    ClaimStreamShape (postRun env).records ∨ CachedStreamShape (postRun env).records := by
  rw [postRun]
  split
  · exact Or.inl (claimShape_err [] (by simp) _)
  · split
    · exact Or.inl (claimShape_err [] (by simp) _)
    · split
      · exact Or.inr ⟨_, _, rfl⟩
      · dsimp only []
        split
        · refine Or.inl (claimShape_err (Record.update "Fetching repository information" 10 ::
            (fetchWithRateLimitHandling env.repoGet).events) ?_ _)
          intro r hr
          rcases List.mem_cons.mp hr with rfl | h2
          · rfl
          · exact fetch_events_updates env.repoGet r h2
        · split
          · exact Or.inl (claimShape_err _ (fun r hr => pre_events_updates env r hr) _)
          · exact Or.inl (claimShape_err _ (fun r hr => pre_events_updates env r hr) _)
          · exact Or.inl (claimShape_success _ _
              (fun r hr => pre_events_updates env r hr)
              (fun r hr => batchRun_events_updates (processUserRun env)
                (fun l r2 h2 => processUserRun_events_updates env l r2 h2) _ _ _ r hr)
              _ _ _)

end Influencers
